import Mathlib

/-!
Shallow embedding of `src/scripts/validate-dotfiles.rs`.

The script is a repository linter: five independent rules read a snapshot of
the dotfiles repository (filesystem plus git query answers), each producing a
`ValidationResult`; a validator runs them in a fixed order and reduces the
collected results to a process exit code.

All effects of the Rust code are made explicit through a `World` record that
fixes the answers of every external query the script can make:
`Path::exists`, `fs::read_to_string`, the three git subprocess queries,
`toml::from_str` / `serde_json::from_str` (the two parser libraries, modelled
as abstract functions on file content), and the symlink metadata calls.

One genuine source of nondeterminism remains: `dotter_files_tracked` collects
the referenced source paths into a `std::collections::HashSet` and then
iterates it.  Iteration order of a Rust `HashSet` is unspecified (the hasher
is randomly seeded per instance), so the embedding takes the iteration order
as an explicit parameter `ord : List String → List String`; a legitimate
iteration order is any permutation of the deduplicated insertion-order list.
-/

deriving instance DecidableEq for Except

/-- Rust `enum Severity` from the script. -/
inductive Severity where
  | Error
  | Warning
  deriving DecidableEq, Repr

/-- Rust `struct Issue`: one finding of one rule. -/
structure Issue where
  severity : Severity
  message : String
  file : Option String
  fix_suggestion : Option String
  deriving DecidableEq, Repr

/-- Rust `struct ValidationResult`: the outcome of one rule. -/
structure ValidationResult where
  rule_name : String
  passed : Bool
  issues : List Issue
  deriving DecidableEq, Repr

/-- Rust `struct Config`: run parameters (repository root, flags). -/
structure Config where
  dotfiles_dir : String
  verbose : Bool
  fix_mode : Bool
  deriving DecidableEq, Repr

/-- The observable outcome of one subprocess invocation (`std::process::Output`):
whether the exit status was success, and the stdout bytes decoded as UTF-8
(`none` models `String::from_utf8` failing on the bytes). -/
structure CmdOutput where
  status_success : Bool
  stdout_utf8 : Option String
  deriving DecidableEq, Repr

/-- A `toml::Value` as far as the script inspects it: it only ever asks
`as_table` and `get` on tables, so other value forms are collapsed into
`str`/`boolean` leaves. -/
inductive TomlVal where
  | table (entries : List (String × TomlVal))
  | str (s : String)
  | boolean (b : Bool)
  deriving Repr

/-- The repository snapshot: answers to every external query the script makes.
`fsExists`, `readFile`, `symlinkMetaOk`, `isSymlink`, `followOk` are keyed by
the full (root-joined) path the script passes to the filesystem; `tracked`
and `ignored` are keyed by the repository-relative path passed to the git
subprocess (run with the repository root as working directory). `lsFiles` is
the outcome of `git ls-files` (`none` models the subprocess failing to spawn).
`parseToml`/`jsonOk` model the two parser libraries as functions of the file
content (`none`/`false` meaning a parse error). -/
structure World where
  fsExists : String → Bool
  readFile : String → Option String
  tracked : String → Bool
  ignored : String → Bool
  lsFiles : Option CmdOutput
  parseToml : String → Option TomlVal
  jsonOk : String → Bool
  symlinkMetaOk : String → Bool
  isSymlink : String → Bool
  followOk : String → Bool

/-- Model of `PathBuf::join` followed by `.display().to_string()`, for the relative
second components the script uses (Unix separator semantics). -/
def pathJoin (dir rel : String) : String :=
  if dir = "" then rel
  else if "/".data.isSuffixOf dir.data then dir ++ rel
  else dir ++ "/" ++ rel

/-- Rust `str::ends_with`. -/
def strEndsWith (s post : String) : Bool :=
  decide (post.data <:+ s.data)

/-- Rust `str::contains` with a string pattern (substring test). -/
def strContains (s pat : String) : Bool :=
  decide (pat.data <:+: s.data)

/-- Split a character list at every newline character (the pieces do not
contain the newline itself); the spine of Rust `str::lines`. -/
def splitOnNewline : List Char → List (List Char)
  | [] => [[]]
  | c :: rest =>
    match splitOnNewline rest with
    | [] => [[]]
    | line :: more =>
      if c = '\n' then [] :: line :: more else (c :: line) :: more

/-- Drop one trailing carriage return, as Rust `str::lines` does per line. -/
def stripCR (cs : List Char) : List Char :=
  match cs.getLast? with
  | some c => if c = '\x0d' then cs.dropLast else cs
  | none => cs

/-- Rust `str::lines`: split on `\n`, strip one trailing `\r` per line, and
do not yield a final empty line after a trailing newline. -/
def rustLines (s : String) : List String :=
  let parts := (splitOnNewline s.data).map (fun cs => String.mk (stripCR cs))
  match parts.getLast? with
  | some l => if l = "" then parts.dropLast else parts
  | none => parts

/-- Source `is_tracked_by_git`: `git ls-files --error-unmatch <filepath>` run in the
repository root; any spawn failure already collapsed to `false` in `tracked`. -/
def is_tracked_by_git (w : World) (filepath : String) : Bool :=
  w.tracked filepath

/-- Source `is_ignored_by_git`: `git check-ignore <filepath>`, same failure policy. -/
def is_ignored_by_git (w : World) (filepath : String) : Bool :=
  w.ignored filepath

/-- Source `get_tracked_files`: runs `git ls-files`.  A spawn failure
(`.context("Failed to run git ls-files")?`) and invalid UTF-8 output
(`.context("Invalid UTF-8 in git output")?`) are hard errors; a run that
exits unsuccessfully yields `Ok(Vec::new())`.  Otherwise the non-empty
lines of stdout. -/
def get_tracked_files (w : World) : Except String (List String) :=
  match w.lsFiles with
  | none => .error "Failed to run git ls-files"
  | some out =>
    if out.status_success = false then .ok []
    else
      match out.stdout_utf8 with
      | none => .error "Invalid UTF-8 in git output"
      | some s => .ok ((rustLines s).filter (fun l => !l.data.isEmpty))

/-- Source `is_broken_symlink`: `symlink_metadata` succeeds, reports a symlink, and
following the link (`fs::metadata`) fails. -/
def is_broken_symlink (w : World) (path : String) : Bool :=
  if w.symlinkMetaOk path then
    if w.isSymlink path then !(w.followOk path) else false
  else false

/-- Model of `toml::Value::as_table`. -/
def tomlAsTable : TomlVal → Option (List (String × TomlVal))
  | .table entries => some entries
  | _ => none

/-- Model of `toml::Value::get` with a string key (lookup in a table, `None` on any
other value form). -/
def tomlGet (v : TomlVal) (key : String) : Option TomlVal :=
  match v with
  | .table entries => (entries.find? (fun e => e.1 = key)).map (fun e => e.2)
  | _ => none

/-- The traversal inside `dotter_files_tracked`: for every top-level entry of
the parsed document, look up its `files` table and take the source-path keys. -/
def extractSources (doc : TomlVal) : List String :=
  match tomlAsTable doc with
  | none => []
  | some entries =>
    entries.flatMap (fun kv =>
      match tomlGet kv.2 "files" with
      | none => []
      | some files =>
        match tomlAsTable files with
        | none => []
        | some files_table => files_table.map (fun e => e.1))

/-- Model of `HashSet::insert`: the set contents as a deduplicated list in insertion
order (iteration order is supplied separately, see the module comment). -/
def insertDedup (acc : List String) (s : String) : List String :=
  if s ∈ acc then acc else acc ++ [s]

/-- Processing of one config document inside `dotter_files_tracked`: a missing
document is silently skipped; a read failure or a parse failure is a hard
error (the `?` operator); otherwise the referenced sources join the set. -/
def collectFromConfig (w : World) (dir rel : String) (acc : List String) :
    Except String (List String) :=
  let toml_path := pathJoin dir rel
  if w.fsExists toml_path = false then .ok acc
  else
    match w.readFile toml_path with
    | none => .error ("Failed to read " ++ toml_path)
    | some content =>
      match w.parseToml content with
      | none => .error ("Failed to parse " ++ toml_path)
      | some doc => .ok ((extractSources doc).foldl insertDedup acc)

/-- The `for toml_path in [global_toml, macos_toml]` loop of
`dotter_files_tracked`. -/
def collectSources (w : World) (dir : String) : Except String (List String) :=
  match collectFromConfig w dir ".dotter/global.toml" [] with
  | .error e => .error e
  | .ok acc => collectFromConfig w dir ".dotter/macos.toml" acc

/-- The per-source body of the validation loop in `dotter_files_tracked`. -/
def checkSource (w : World) (dir source : String) : List Issue :=
  if w.fsExists (pathJoin dir source) = false then
    [{ severity := Severity.Error, message := "File missing: " ++ source,
       file := some source, fix_suggestion := none }]
  else if is_tracked_by_git w source = false then
    if is_ignored_by_git w source then
      [{ severity := Severity.Error, message := "File ignored by git: " ++ source,
         file := some source,
         fix_suggestion := some ("Add to .gitignore: !" ++ source) }]
    else
      [{ severity := Severity.Warning, message := "File not tracked: " ++ source,
         file := some source, fix_suggestion := some ("Run: git add " ++ source) }]
  else []

/-- Source `dotter_configs_exist`: the required `.dotter/global.toml` must exist at
the joined location; the issue names `global_toml.display()`. -/
def dotter_configs_exist (w : World) (config : Config) : ValidationResult :=
  let global_toml := pathJoin config.dotfiles_dir ".dotter/global.toml"
  let issues : List Issue :=
    if w.fsExists global_toml = false then
      [{ severity := Severity.Error, message := "Dotter global.toml not found",
         file := some global_toml, fix_suggestion := none }]
    else []
  { rule_name := "Dotter configuration files exist",
    passed := issues.isEmpty, issues := issues }

/-- Source `dotter_files_tracked`: collect the referenced sources from the two config
documents, iterate the `HashSet` in the order given by `ord`, and check each
source.  The rule passes iff every issue is a `Warning`. -/
def dotter_files_tracked (w : World) (config : Config)
    (ord : List String → List String) : Except String ValidationResult :=
  match collectSources w config.dotfiles_dir with
  | .error e => .error e
  | .ok all_files =>
    let issues := (ord all_files).flatMap (checkSource w config.dotfiles_dir)
    let passed := issues.all (fun i => decide (i.severity = Severity.Warning))
    .ok { rule_name := "Dotter files exist and are tracked",
          passed := passed, issues := issues }

/-- Source `no_broken_symlinks`: every tracked file whose joined path is a broken
symlink yields one Error issue. -/
def no_broken_symlinks (w : World) (config : Config) :
    Except String ValidationResult :=
  match get_tracked_files w with
  | .error e => .error e
  | .ok tracked =>
    let issues := tracked.flatMap (fun file =>
      if is_broken_symlink w (pathJoin config.dotfiles_dir file) then
        [{ severity := Severity.Error, message := "Broken symlink: " ++ file,
           file := some file, fix_suggestion := none }]
      else [])
    .ok { rule_name := "No broken symlinks",
          passed := issues.isEmpty, issues := issues }

/-- The extension filter of `toml_files_valid`. -/
def tomlFilter (f : String) : Bool :=
  strEndsWith f ".toml"

/-- The per-file body of `toml_files_valid`: unreadable files are skipped
silently; readable content that fails to parse yields one Error issue. -/
def checkTomlFile (w : World) (dir f : String) : List Issue :=
  match w.readFile (pathJoin dir f) with
  | none => []
  | some content =>
    if (w.parseToml content).isSome then []
    else [{ severity := Severity.Error, message := "Invalid TOML syntax: " ++ f,
            file := some f, fix_suggestion := none }]

/-- Source `toml_files_valid`: parse every tracked `.toml` file; the rule name embeds
`toml_files.len()`. -/
def toml_files_valid (w : World) (config : Config) :
    Except String ValidationResult :=
  match get_tracked_files w with
  | .error e => .error e
  | .ok tracked =>
    let toml_files := tracked.filter tomlFilter
    let issues := toml_files.flatMap (checkTomlFile w config.dotfiles_dir)
    .ok { rule_name := "All " ++ toString toml_files.length ++ " TOML files are valid",
          passed := issues.isEmpty, issues := issues }

/-- The extension filter of `json_files_valid` (`.json` or `.jsonc`). -/
def jsonFilter (f : String) : Bool :=
  strEndsWith f ".json" || strEndsWith f ".jsonc"

/-- The in-loop exception of `json_files_valid`: `.jsonc` files and Zed config
files are allowed to contain comments and are skipped. -/
def jsonSkip (f : String) : Bool :=
  strEndsWith f ".jsonc" || strContains f "/.config/zed/"

/-- The per-file body of `json_files_valid`: skipped files produce nothing;
otherwise unreadable files are skipped silently and readable content that is
not strict JSON yields one Error issue. -/
def checkJsonFile (w : World) (dir f : String) : List Issue :=
  if jsonSkip f then []
  else
    match w.readFile (pathJoin dir f) with
    | none => []
    | some content =>
      if w.jsonOk content then []
      else [{ severity := Severity.Error, message := "Invalid JSON syntax: " ++ f,
              file := some f, fix_suggestion := none }]

/-- Source `json_files_valid`: the rule name embeds `json_files.len()`, the size of
the extension-filtered selection (including files the loop then skips). -/
def json_files_valid (w : World) (config : Config) :
    Except String ValidationResult :=
  match get_tracked_files w with
  | .error e => .error e
  | .ok tracked =>
    let json_files := tracked.filter jsonFilter
    let issues := json_files.flatMap (checkJsonFile w config.dotfiles_dir)
    .ok { rule_name := "All " ++ toString json_files.length ++ " JSON files are valid",
          passed := issues.isEmpty, issues := issues }

/-- Source `Validator::run_rules`: the fixed rule sequence; `results.push(rule(c)?)`
aborts at the first rule error, discarding everything gathered so far. -/
def run_rules (w : World) (config : Config)
    (ord : List String → List String) : Except String (List ValidationResult) :=
  let r1 := dotter_configs_exist w config
  match dotter_files_tracked w config ord with
  | .error e => .error e
  | .ok r2 =>
    match no_broken_symlinks w config with
    | .error e => .error e
    | .ok r3 =>
      match toml_files_valid w config with
      | .error e => .error e
      | .ok r4 =>
        match json_files_valid w config with
        | .error e => .error e
        | .ok r5 => .ok [r1, r2, r3, r4, r5]

/-- All issues across all results, in result order (the
`results.iter().flat_map(|r| &r.issues)` traversal of `summarize`). -/
def allIssues (results : List ValidationResult) : List Issue :=
  results.flatMap ValidationResult.issues

/-- Counter `total_issues` in `Validator::summarize`. -/
def totalIssueCount (results : List ValidationResult) : Nat :=
  (results.map (fun r => r.issues.length)).sum

/-- Counter `errors` in `Validator::summarize`. -/
def errorCount (results : List ValidationResult) : Nat :=
  ((allIssues results).filter (fun i => decide (i.severity = Severity.Error))).length

/-- Counter `warnings` in `Validator::summarize`. -/
def warningCount (results : List ValidationResult) : Nat :=
  totalIssueCount results - errorCount results

/-- The exit code computed by `Validator::summarize` (the printing, and the
fix-mode suggestion listing, affect only the terminal output, never the
returned code): `1` when `errors > 0`, `0` otherwise. -/
def summarize (results : List ValidationResult) : Int :=
  if errorCount results > 0 then 1 else 0

/-- Modelled from the spec: the files the JSON validity rule "actually
checked" in the sense of claim C9 — files it read and attempted to parse,
i.e. the extension-filtered selection minus the skipped `.jsonc`/Zed files
and minus the files whose content could not be read.  This definition follows
the wording of the spec; `json_files_valid` above follows the source. -/
def specJsonFilesChecked (w : World) (config : Config) :
    Except String (List String) :=
  match get_tracked_files w with
  | .error e => .error e
  | .ok tracked =>
    let json_files := tracked.filter jsonFilter
    .ok (json_files.filter (fun f =>
      !jsonSkip f && (w.readFile (pathJoin config.dotfiles_dir f)).isSome))

/-! ## Concrete snapshots used by witnesses and counterexamples -/

/-- A snapshot where every query fails or comes back empty/negative. -/
def emptyWorld : World where
  fsExists := fun _ => false
  readFile := fun _ => none
  tracked := fun _ => false
  ignored := fun _ => false
  lsFiles := none
  parseToml := fun _ => none
  jsonOk := fun _ => false
  symlinkMetaOk := fun _ => false
  isSymlink := fun _ => false
  followOk := fun _ => false

/-- A run configuration rooted at `d` with both flags off. -/
def cfgD : Config := { dotfiles_dir := "d", verbose := false, fix_mode := false }

/-- A parsed config document referencing source files `a` and `b`. -/
def tomlDocAB : TomlVal :=
  .table [("grp", .table [("files", .table [("a", .str ""), ("b", .str "")])])]

/-- A parsed config document referencing the single source file `a`. -/
def tomlDocA : TomlVal :=
  .table [("grp", .table [("files", .table [("a", .str "")])])]

/-- Snapshot: `global.toml` exists and parses, referencing the one source `a`,
which does not exist on disk. -/
def wMissingA : World := { emptyWorld with
  fsExists := fun p => p == "d/.dotter/global.toml"
  readFile := fun p => if p == "d/.dotter/global.toml" then some "conf" else none
  parseToml := fun c => if c == "conf" then some tomlDocA else none
  lsFiles := some { status_success := true, stdout_utf8 := some "" } }

/-- Snapshot: `global.toml` exists and is readable but its content does not
parse as TOML. -/
def wBadToml : World := { emptyWorld with
  fsExists := fun p => p == "d/.dotter/global.toml"
  readFile := fun p => if p == "d/.dotter/global.toml" then some "bad" else none }

/-- Snapshot: `git ls-files` runs but exits unsuccessfully. -/
def wGitFails : World := { emptyWorld with
  lsFiles := some { status_success := false, stdout_utf8 := none } }

/-- Snapshot: `global.toml` references the one source `a`, which exists on
disk but is neither tracked nor ignored. -/
def wUntrackedA : World := { emptyWorld with
  fsExists := fun p => p == "d/.dotter/global.toml" || p == "d/a"
  readFile := fun p => if p == "d/.dotter/global.toml" then some "conf" else none
  parseToml := fun c => if c == "conf" then some tomlDocA else none
  lsFiles := some { status_success := true, stdout_utf8 := some "" } }

/-- Snapshot: the one tracked file is `a.jsonc` and every file content is
unreadable as strict JSON. -/
def wJsonc : World := { emptyWorld with
  lsFiles := some { status_success := true, stdout_utf8 := some "a.jsonc" }
  readFile := fun _ => some "bad"
  jsonOk := fun _ => false }

/-- Snapshot: `global.toml` exists and parses, referencing sources `a` and
`b`, both missing on disk — so the reference rule emits two issues and their
order depends on the set-iteration order. -/
def wTwoMissing : World := { emptyWorld with
  fsExists := fun p => p == "d/.dotter/global.toml"
  readFile := fun p => if p == "d/.dotter/global.toml" then some "conf" else none
  parseToml := fun c => if c == "conf" then some tomlDocAB else none
  lsFiles := some { status_success := true, stdout_utf8 := some "" } }

/-- A run configuration with an absolute repository root. -/
def cfgAbs : Config :=
  { dotfiles_dir := "/home/user/dots", verbose := false, fix_mode := false }

/-! ## Helper lemmas -/

/-- If the pattern occurs in `a`, it occurs in `a ++ s`. -/
theorem strContains_append_right (a s b : String) (h : strContains a b = true) :
    strContains (a ++ s) b = true := by
  apply decide_eq_true
  have hi : b.data <:+: a.data := of_decide_eq_true h
  obtain ⟨u, v, huv⟩ := hi
  refine ⟨u, v ++ s.data, ?_⟩
  rw [String.data_append, ← huv]
  simp [List.append_assoc]

/-- A string occurs in anything it suffixes. -/
theorem strContains_append_self (a b : String) :
    strContains (a ++ b) b = true := by
  apply decide_eq_true
  refine ⟨a.data, [], ?_⟩
  simp [String.data_append]

/-- Insertion via `insertDedup` preserves distinctness of the contents list. -/
theorem insertDedup_nodup {acc : List String} (s : String) (h : acc.Nodup) :
    (insertDedup acc s).Nodup := by
  unfold insertDedup
  split
  · exact h
  · simp only [List.nodup_append, List.nodup_cons, List.not_mem_nil,
      not_false_iff, List.nodup_nil, and_true, true_and]
    constructor
    · exact h
    · intro a ha hb
      simp only [List.mem_singleton] at hb
      subst hb
      exact absurd ha (by assumption)

/-- Folding insertions preserves distinctness. -/
theorem foldl_insertDedup_nodup (l : List String) :
    ∀ acc : List String, acc.Nodup → (l.foldl insertDedup acc).Nodup := by
  induction l with
  | nil => intro acc h; exact h
  | cons a t ih =>
    intro acc h
    exact ih (insertDedup acc a) (insertDedup_nodup a h)

/-- Processing one config document preserves distinctness of the collected
source set. -/
theorem collectFromConfig_nodup {w : World} {dir rel : String}
    {acc out : List String} (h : acc.Nodup)
    (he : collectFromConfig w dir rel acc = .ok out) : out.Nodup := by
  simp only [collectFromConfig] at he
  split at he
  · simp only [Except.ok.injEq] at he; subst he; exact h
  · rcases hr : w.readFile (pathJoin dir rel) with _ | content
    · simp [hr] at he
    · simp only [hr] at he
      rcases hp : w.parseToml content with _ | doc
      · simp [hr, hp] at he
      · simp only [hp, Except.ok.injEq] at he
        subst he
        exact foldl_insertDedup_nodup _ acc h

/-- The collected source set is a distinct list. -/
theorem collectSources_nodup {w : World} {dir : String} {srcs : List String}
    (h : collectSources w dir = .ok srcs) : srcs.Nodup := by
  unfold collectSources at h
  rcases h1 : collectFromConfig w dir ".dotter/global.toml" [] with e | acc
  · rw [h1] at h; cases h
  · rw [h1] at h
    exact collectFromConfig_nodup (collectFromConfig_nodup List.nodup_nil h1) h

/-- A `flatMap` over a list where every element maps to `[]` is empty. -/
theorem flatMap_eq_nil_of {α β : Type} (l : List α) (f : α → List β)
    (h : ∀ g ∈ l, f g = []) : l.flatMap f = [] := by
  induction l with
  | nil => rfl
  | cons a t ih =>
    rw [List.flatMap_cons, h a (List.mem_cons_self a t),
      ih (fun g hg => h g (List.mem_cons_of_mem a hg))]
    rfl

/-- A `flatMap` over a list containing `a` exactly once, where every other
element maps to `[]`, is just `f a`. -/
theorem flatMap_count_one {α β : Type} [DecidableEq α]
    (l : List α) (f : α → List β) (a : α)
    (hc : List.count a l = 1) (h : ∀ g ∈ l, g ≠ a → f g = []) :
    l.flatMap f = f a := by
  induction l with
  | nil => simp at hc
  | cons b t ih =>
    rw [List.flatMap_cons]
    by_cases hba : b = a
    · subst hba
      rw [List.count_cons_self] at hc
      have ht : List.count b t = 0 := by omega
      have hnm : b ∉ t := by
        intro hm
        exact absurd ht (by simpa using (List.count_pos_iff.mpr hm).ne')
      have : t.flatMap f = [] := by
        apply flatMap_eq_nil_of
        intro g hg
        apply h g (List.mem_cons_of_mem b hg)
        intro hgb; subst hgb; exact hnm hg
      rw [this, List.append_nil]
    · rw [h b (List.mem_cons_self b t) hba]
      rw [List.nil_append]
      apply ih
      · rwa [List.count_cons_of_ne (fun hab => hba hab.symm)] at hc
      · intro g hg; exact h g (List.mem_cons_of_mem b hg)

/-- Every issue the per-source check emits names that source as its file. -/
theorem checkSource_file (w : World) (dir src : String) :
    ∀ i ∈ checkSource w dir src, i.file = some src := by
  intro i hi
  unfold checkSource at hi
  split at hi
  · simp only [List.mem_singleton] at hi; subst hi; rfl
  · split at hi
    · split at hi
      · simp only [List.mem_singleton] at hi; subst hi; rfl
      · simp only [List.mem_singleton] at hi; subst hi; rfl
    · cases hi

/-- Every issue the per-file JSON check emits names that file. -/
theorem checkJsonFile_file (w : World) (dir f : String) :
    ∀ i ∈ checkJsonFile w dir f, i.file = some f := by
  intro i hi
  unfold checkJsonFile at hi
  split at hi
  · cases hi
  · rcases hr : w.readFile (pathJoin dir f) with _ | content
    · simp only [hr] at hi; cases hi
    · simp only [hr] at hi
      split at hi
      · cases hi
      · simp only [List.mem_singleton] at hi; subst hi; rfl

/-- Every issue the per-file TOML check emits names that file. -/
theorem checkTomlFile_file (w : World) (dir f : String) :
    ∀ i ∈ checkTomlFile w dir f, i.file = some f := by
  intro i hi
  unfold checkTomlFile at hi
  rcases hr : w.readFile (pathJoin dir f) with _ | content
  · simp only [hr] at hi; cases hi
  · simp only [hr] at hi
    split at hi
    · cases hi
    · simp only [List.mem_singleton] at hi; subst hi; rfl

/-! ## Claim theorems -/

/-- A result with a single Warning issue, used to witness C1. -/
def oneWarnResult : ValidationResult :=
  { rule_name := "r", passed := true,
    issues := [{ severity := Severity.Warning, message := "w",
                 file := none, fix_suggestion := none }] }

/-- C1: `Validator::summarize` returns exit code 1 if and only if at least one
issue across all results has severity Error; when there are no Error issues,
even if Warning issues exist, it returns 0. -/
theorem summarize_exit_code_iff_error (results : List ValidationResult) :
    (summarize results = 1 ↔ ∃ i ∈ allIssues results, i.severity = Severity.Error)
    ∧ ((∀ i ∈ allIssues results, i.severity ≠ Severity.Error) →
        summarize results = 0) := by
  have key : 0 < errorCount results ↔
      ∃ i ∈ allIssues results, i.severity = Severity.Error := by
    unfold errorCount
    rw [List.length_pos]
    constructor
    · intro hne
      obtain ⟨i, hi⟩ := List.exists_mem_of_ne_nil _ hne
      rw [List.mem_filter] at hi
      exact ⟨i, hi.1, of_decide_eq_true hi.2⟩
    · rintro ⟨i, hmem, hsev⟩ hnil
      rw [List.filter_eq_nil_iff] at hnil
      exact hnil i hmem (by simp [hsev])
  constructor
  · unfold summarize
    split
    · next h => exact iff_of_true rfl (key.mp h)
    · next h =>
      refine iff_of_false (by decide) ?_
      intro hex
      exact h (key.mpr hex)
  · intro hall
    unfold summarize
    rw [if_neg]
    intro hpos
    obtain ⟨i, hmem, hsev⟩ := key.mp hpos
    exact hall i hmem hsev

/-- C1 witness: with a single Warning issue the exit code is 0. -/
theorem summarize_exit_code_iff_error_witness :
    summarize [oneWarnResult] = 0 :=
  (summarize_exit_code_iff_error [oneWarnResult]).2 (by decide)

/-- C10: the exit code depends only on the multiset of issue severities, never
on the `passed` flags: severity-permuted issue sets give the same exit code,
result lists with identical issues give the same exit code whatever their
flags, and a failed result with no issues still yields exit code 0. -/
theorem summarize_ignores_passed_flags (rs₁ rs₂ : List ValidationResult)
    (name : String) :
    (((allIssues rs₁).map Issue.severity).Perm ((allIssues rs₂).map Issue.severity) →
      summarize rs₁ = summarize rs₂)
    ∧ (rs₁.map ValidationResult.issues = rs₂.map ValidationResult.issues →
      summarize rs₁ = summarize rs₂)
    ∧ summarize [{ rule_name := name, passed := false, issues := [] }] = 0 := by
  have hcount : ∀ rs : List ValidationResult, errorCount rs =
      List.countP (fun s => decide (s = Severity.Error))
        ((allIssues rs).map Issue.severity) := by
    intro rs
    rw [List.countP_map]
    unfold errorCount
    rw [← List.countP_eq_length_filter]
    rfl
  refine ⟨?_, ?_, ?_⟩
  · intro hperm
    unfold summarize
    rw [hcount rs₁, hcount rs₂, hperm.countP_eq]
  · intro heq
    have hall : allIssues rs₁ = allIssues rs₂ := by
      unfold allIssues
      rw [List.flatMap_def, List.flatMap_def, heq]
    unfold summarize errorCount
    rw [hall]
  · rfl

/-- C10 witness: two singleton result lists with the same (empty) issues but
opposite `passed` flags get the same exit code. -/
theorem summarize_ignores_passed_flags_witness :
    summarize [{ rule_name := "r", passed := true, issues := [] }]
      = summarize [{ rule_name := "r", passed := false, issues := [] }] :=
  (summarize_ignores_passed_flags
    [{ rule_name := "r", passed := true, issues := [] }]
    [{ rule_name := "r", passed := false, issues := [] }] "r").2.1 (by decide)

/-- C4 counterexample: when the `git ls-files` subprocess cannot be run at all
(spawn failure), `get_tracked_files` does NOT return an empty sequence — it
returns a hard error, contradicting the claim that any underlying query
failure yields an empty sequence rather than an error. -/
theorem get_tracked_files_hard_error_cex :
    get_tracked_files emptyWorld = .error "Failed to run git ls-files"
    ∧ get_tracked_files emptyWorld ≠ .ok [] := by decide

/-- C4 (amended): `get_tracked_files` returns an empty sequence (not an
error) only when the git command runs but exits unsuccessfully; a spawn
failure or non-UTF-8 output is a hard error.  In the empty-sequence case the
consuming rules degrade to checking nothing. -/
theorem get_tracked_files_failure_modes (w : World) (config : Config)
    (out : CmdOutput) :
    (w.lsFiles = some out → out.status_success = false →
      get_tracked_files w = .ok [])
    ∧ (w.lsFiles = none →
      get_tracked_files w = .error "Failed to run git ls-files")
    ∧ (w.lsFiles = some out → out.status_success = true →
        out.stdout_utf8 = none →
      get_tracked_files w = .error "Invalid UTF-8 in git output")
    ∧ (w.lsFiles = some out → out.status_success = false →
      no_broken_symlinks w config =
          .ok { rule_name := "No broken symlinks", passed := true, issues := [] }
        ∧ toml_files_valid w config =
          .ok { rule_name := "All 0 TOML files are valid", passed := true, issues := [] }
        ∧ json_files_valid w config =
          .ok { rule_name := "All 0 JSON files are valid", passed := true, issues := [] }) := by
  refine ⟨?_, ?_, ?_, ?_⟩
  · intro hls hst
    simp [get_tracked_files, hls, hst]
  · intro hls
    simp [get_tracked_files, hls]
  · intro hls hst hut
    simp [get_tracked_files, hls, hst, hut]
  · intro hls hst
    have hg : get_tracked_files w = .ok [] := by
      simp [get_tracked_files, hls, hst]
    refine ⟨?_, ?_, ?_⟩
    · unfold no_broken_symlinks
      rw [hg]
      rfl
    · unfold toml_files_valid
      rw [hg]
      rfl
    · unfold json_files_valid
      rw [hg]
      rfl

/-- C4 witness: a run where git exits unsuccessfully yields the empty list. -/
theorem get_tracked_files_failure_modes_witness :
    get_tracked_files wGitFails = .ok [] :=
  (get_tracked_files_failure_modes wGitFails cfgD
    { status_success := false, stdout_utf8 := none }).1 (by decide) (by decide)

/-- C5: the result of the reference rule passes exactly when every issue in its
list has severity Warning; an empty issue list passes, and any Error issue
makes the rule fail. -/
theorem dotter_files_tracked_pass_policy (w : World) (config : Config)
    (ord : List String → List String) (r : ValidationResult)
    (hok : dotter_files_tracked w config ord = .ok r) :
    (r.passed = true ↔ ∀ i ∈ r.issues, i.severity = Severity.Warning)
    ∧ (r.issues = [] → r.passed = true)
    ∧ (∀ i ∈ r.issues, i.severity = Severity.Error → r.passed = false) := by
  rcases r with ⟨n, p, is⟩
  rcases hcs : collectSources w config.dotfiles_dir with e | srcs
  · simp [dotter_files_tracked, hcs] at hok
  · simp only [dotter_files_tracked, hcs, Except.ok.injEq,
      ValidationResult.mk.injEq] at hok
    obtain ⟨hn, hp, his⟩ := hok
    subst hp
    subst his
    dsimp only
    have hiff : ((ord srcs).flatMap (checkSource w config.dotfiles_dir)).all
        (fun i => decide (i.severity = Severity.Warning)) = true ↔
        ∀ i ∈ (ord srcs).flatMap (checkSource w config.dotfiles_dir),
          i.severity = Severity.Warning := by
      rw [List.all_eq_true]
      simp only [decide_eq_true_eq]
    refine ⟨hiff, ?_, ?_⟩
    · intro hnil
      rw [hnil]
      rfl
    · intro i hi hsev
      cases hall : ((ord srcs).flatMap (checkSource w config.dotfiles_dir)).all
          (fun i => decide (i.severity = Severity.Warning)) with
      | false => rfl
      | true =>
        have := hiff.mp hall i hi
        rw [hsev] at this
        cases this

/-- The reference-rule result on `wUntrackedA`: one Warning, rule passes. -/
def rUntrackedA : ValidationResult :=
  { rule_name := "Dotter files exist and are tracked", passed := true,
    issues := [{ severity := Severity.Warning, message := "File not tracked: a",
                 file := some "a", fix_suggestion := some "Run: git add a" }] }

/-- C5 witness: a Warning-only issue list still passes the reference rule. -/
theorem dotter_files_tracked_pass_policy_witness :
    rUntrackedA.passed = true :=
  (dotter_files_tracked_pass_policy wUntrackedA cfgD id rUntrackedA
    (by decide)).1.mpr (by decide)

/-- The JSON-rule result on `wJsonc`: name counts 1 file, nothing checked. -/
def rJsonc : ValidationResult :=
  { rule_name := "All 1 JSON files are valid", passed := true, issues := [] }

/-- C9 counterexample: with the single tracked file `a.jsonc` (whose content
is not valid strict JSON), the name of the JSON rule says "All 1 JSON files are
valid" although the rule read and parsed zero files — the name embeds the
size of the extension-filtered selection, not the number of files checked. -/
theorem json_rule_name_count_cex :
    json_files_valid wJsonc cfgD = .ok rJsonc
    ∧ specJsonFilesChecked wJsonc cfgD = .ok [] := by decide

/-- C9 (amended): the name of each validity rule embeds the number of tracked
files selected by its extension filter (for the JSON rule this includes the
skipped `.jsonc`/excepted-directory files, and for both rules it includes
unreadable files that are never parsed). -/
theorem rule_name_embeds_filtered_count (w : World) (config : Config)
    (ts : List String) (r4 r5 : ValidationResult)
    (hts : get_tracked_files w = .ok ts) :
    (toml_files_valid w config = .ok r4 →
      r4.rule_name =
        "All " ++ toString (ts.filter tomlFilter).length ++ " TOML files are valid")
    ∧ (json_files_valid w config = .ok r5 →
      r5.rule_name =
        "All " ++ toString (ts.filter jsonFilter).length ++ " JSON files are valid") := by
  constructor
  · intro hok
    simp only [toml_files_valid, hts, Except.ok.injEq] at hok
    subst hok
    rfl
  · intro hok
    simp only [json_files_valid, hts, Except.ok.injEq] at hok
    subst hok
    rfl

/-- C9 witness: the JSON-rule name on `wJsonc` embeds the filtered count 1. -/
theorem rule_name_embeds_filtered_count_witness :
    rJsonc.rule_name =
      "All " ++ toString ((["a.jsonc"].filter jsonFilter).length) ++ " JSON files are valid" :=
  (rule_name_embeds_filtered_count wJsonc cfgD ["a.jsonc"] rJsonc rJsonc
    (by decide)).2 (by decide)

/-- C6: a tracked file selected by the JSON extension filter that ends in
`.jsonc` or lies under the excepted `/.config/zed/` directory produces no
issue, whatever its content; no issue of the resulting rule outcome names it. -/
theorem json_files_valid_skip_no_issue (w : World) (config : Config)
    (ts : List String) (f : String) (r : ValidationResult)
    (hts : get_tracked_files w = .ok ts)
    (hf : f ∈ ts.filter jsonFilter)
    (hskip : strEndsWith f ".jsonc" = true ∨ strContains f "/.config/zed/" = true)
    (hok : json_files_valid w config = .ok r) :
    checkJsonFile w config.dotfiles_dir f = []
    ∧ ∀ i ∈ r.issues, i.file ≠ some f := by
  have hsk : jsonSkip f = true := by
    unfold jsonSkip
    rcases hskip with h | h <;> simp [h]
  have hempty : checkJsonFile w config.dotfiles_dir f = [] := by
    unfold checkJsonFile
    rw [hsk]
    rfl
  refine ⟨hempty, ?_⟩
  rcases r with ⟨n, p, is⟩
  intro i hi
  simp only [json_files_valid, hts, Except.ok.injEq,
    ValidationResult.mk.injEq] at hok
  obtain ⟨hn, hp, his⟩ := hok
  subst his
  dsimp only at hi
  rw [List.mem_flatMap] at hi
  obtain ⟨g, hg, hig⟩ := hi
  have hgf := checkJsonFile_file w config.dotfiles_dir g i hig
  rw [hgf]
  intro hcontr
  have hgeq : g = f := by injection hcontr
  subst hgeq
  rw [hempty] at hig
  cases hig

/-- C6 witness: the `.jsonc` file with unparseable content yields no issue. -/
theorem json_files_valid_skip_no_issue_witness :
    checkJsonFile wJsonc cfgD.dotfiles_dir "a.jsonc" = [] :=
  (json_files_valid_skip_no_issue wJsonc cfgD ["a.jsonc"] "a.jsonc" rJsonc
    (by decide) (by decide) (Or.inl (by decide)) (by decide)).1

/-- C3: a parse failure on the content of an existing config document is not
collected as an Issue — it is a fatal error of the reference rule, and
`run_rules` aborts the whole run with that error, returning no result list at
all.  The first conjunct covers `.dotter/global.toml`, the second
`.dotter/macos.toml` (reached when the first document was processed cleanly). -/
theorem config_parse_failure_fatal (w : World) (config : Config)
    (ord : List String → List String) (c₁ c₂ : String) (acc : List String) :
    (w.fsExists (pathJoin config.dotfiles_dir ".dotter/global.toml") = true →
      w.readFile (pathJoin config.dotfiles_dir ".dotter/global.toml") = some c₁ →
      w.parseToml c₁ = none →
      dotter_files_tracked w config ord =
        .error ("Failed to parse " ++ pathJoin config.dotfiles_dir ".dotter/global.toml")
      ∧ run_rules w config ord =
        .error ("Failed to parse " ++ pathJoin config.dotfiles_dir ".dotter/global.toml")
      ∧ ∀ rs, run_rules w config ord ≠ .ok rs)
    ∧ (collectFromConfig w config.dotfiles_dir ".dotter/global.toml" [] = .ok acc →
      w.fsExists (pathJoin config.dotfiles_dir ".dotter/macos.toml") = true →
      w.readFile (pathJoin config.dotfiles_dir ".dotter/macos.toml") = some c₂ →
      w.parseToml c₂ = none →
      dotter_files_tracked w config ord =
        .error ("Failed to parse " ++ pathJoin config.dotfiles_dir ".dotter/macos.toml")
      ∧ run_rules w config ord =
        .error ("Failed to parse " ++ pathJoin config.dotfiles_dir ".dotter/macos.toml")
      ∧ ∀ rs, run_rules w config ord ≠ .ok rs) := by
  constructor
  · intro hex hr hp
    have hg : collectFromConfig w config.dotfiles_dir ".dotter/global.toml" [] =
        .error ("Failed to parse " ++ pathJoin config.dotfiles_dir ".dotter/global.toml") := by
      simp [collectFromConfig, hex, hr, hp]
    have hcs : collectSources w config.dotfiles_dir =
        .error ("Failed to parse " ++ pathJoin config.dotfiles_dir ".dotter/global.toml") := by
      unfold collectSources
      rw [hg]
    have hd : dotter_files_tracked w config ord =
        .error ("Failed to parse " ++ pathJoin config.dotfiles_dir ".dotter/global.toml") := by
      unfold dotter_files_tracked
      rw [hcs]
    refine ⟨hd, ?_, ?_⟩
    · unfold run_rules
      rw [hd]
    · intro rs
      unfold run_rules
      rw [hd]
      simp
  · intro hga hex hr hp
    have hm : collectFromConfig w config.dotfiles_dir ".dotter/macos.toml" acc =
        .error ("Failed to parse " ++ pathJoin config.dotfiles_dir ".dotter/macos.toml") := by
      simp [collectFromConfig, hex, hr, hp]
    have hcs : collectSources w config.dotfiles_dir =
        .error ("Failed to parse " ++ pathJoin config.dotfiles_dir ".dotter/macos.toml") := by
      unfold collectSources
      rw [hga]
      exact hm
    have hd : dotter_files_tracked w config ord =
        .error ("Failed to parse " ++ pathJoin config.dotfiles_dir ".dotter/macos.toml") := by
      unfold dotter_files_tracked
      rw [hcs]
    refine ⟨hd, ?_, ?_⟩
    · unfold run_rules
      rw [hd]
    · intro rs
      unfold run_rules
      rw [hd]
      simp

/-- C3 witness: on the snapshot with an unparseable `global.toml`, the whole
run aborts with the parse error. -/
theorem config_parse_failure_fatal_witness :
    run_rules wBadToml cfgD id = .error "Failed to parse d/.dotter/global.toml" :=
  ((config_parse_failure_fatal wBadToml cfgD id "bad" "" []).1
    (by decide) (by decide) rfl).2.1

/-- C2: for every source path collected by the reference rule, the issues of
the resulting rule outcome that name that path are exactly the output of
the per-source check, and that output is: one Error containing "missing" and no fix when
the path does not exist (and in particular no tracked/ignored issue for it);
one Error with a `!<path>` fix when it exists, is untracked and ignored; one
Warning with a stage-for-commit fix when it exists, is untracked and not
ignored; and nothing when it exists and is tracked. -/
theorem dotter_files_tracked_per_source (w : World) (config : Config)
    (ord : List String → List String) (srcs : List String)
    (r : ValidationResult) (src : String)
    (hc : collectSources w config.dotfiles_dir = .ok srcs)
    (hperm : (ord srcs).Perm srcs)
    (hmem : src ∈ srcs)
    (hok : dotter_files_tracked w config ord = .ok r) :
    r.issues.filter (fun i => i.file == some src) =
      checkSource w config.dotfiles_dir src
    ∧ (w.fsExists (pathJoin config.dotfiles_dir src) = false →
        checkSource w config.dotfiles_dir src =
          [{ severity := Severity.Error, message := "File missing: " ++ src,
             file := some src, fix_suggestion := none }]
        ∧ strContains ("File missing: " ++ src) "missing" = true)
    ∧ (w.fsExists (pathJoin config.dotfiles_dir src) = true →
        w.tracked src = false → w.ignored src = true →
        checkSource w config.dotfiles_dir src =
          [{ severity := Severity.Error, message := "File ignored by git: " ++ src,
             file := some src,
             fix_suggestion := some ("Add to .gitignore: !" ++ src) }]
        ∧ strContains ("Add to .gitignore: !" ++ src) ("!" ++ src) = true)
    ∧ (w.fsExists (pathJoin config.dotfiles_dir src) = true →
        w.tracked src = false → w.ignored src = false →
        checkSource w config.dotfiles_dir src =
          [{ severity := Severity.Warning, message := "File not tracked: " ++ src,
             file := some src, fix_suggestion := some ("Run: git add " ++ src) }])
    ∧ (w.fsExists (pathJoin config.dotfiles_dir src) = true →
        w.tracked src = true →
        checkSource w config.dotfiles_dir src = []) := by
  refine ⟨?_, ?_, ?_, ?_, ?_⟩
  · rcases r with ⟨n, p, is⟩
    simp only [dotter_files_tracked, hc, Except.ok.injEq,
      ValidationResult.mk.injEq] at hok
    obtain ⟨hn, hp, his⟩ := hok
    subst his
    dsimp only
    rw [List.filter_flatMap]
    have hnd : srcs.Nodup := collectSources_nodup hc
    have hcount : List.count src (ord srcs) = 1 := by
      rw [hperm.count_eq src]
      exact List.count_eq_one_of_mem hnd hmem
    have hother : ∀ g ∈ ord srcs, g ≠ src →
        (checkSource w config.dotfiles_dir g).filter
          (fun i => i.file == some src) = [] := by
      intro g hg hgs
      rw [List.filter_eq_nil_iff]
      intro i hi
      rw [checkSource_file w config.dotfiles_dir g i hi]
      simp [hgs]
    rw [flatMap_count_one (ord srcs) _ src hcount hother]
    rw [List.filter_eq_self]
    intro i hi
    rw [checkSource_file w config.dotfiles_dir src i hi]
    simp
  · intro hex
    refine ⟨by simp [checkSource, hex], ?_⟩
    exact strContains_append_right "File missing: " src "missing" (by decide)
  · intro hex htr hig
    refine ⟨by simp [checkSource, hex, is_tracked_by_git, is_ignored_by_git, htr, hig], ?_⟩
    have heq : "Add to .gitignore: !" ++ src = "Add to .gitignore: " ++ ("!" ++ src) := by
      rw [← String.append_assoc]
      congr 1
    rw [heq]
    exact strContains_append_self "Add to .gitignore: " ("!" ++ src)
  · intro hex htr hig
    simp [checkSource, hex, is_tracked_by_git, is_ignored_by_git, htr, hig]
  · intro hex htr
    simp [checkSource, hex, is_tracked_by_git, htr]

/-- C2 witness: on the snapshot where the one referenced source `a` is
missing, the check yields exactly the single Error issue. -/
theorem dotter_files_tracked_per_source_witness :
    checkSource wMissingA cfgD.dotfiles_dir "a" =
      [{ severity := Severity.Error, message := "File missing: " ++ "a",
         file := some "a", fix_suggestion := none }]
    ∧ strContains ("File missing: " ++ "a") "missing" = true := by
  have hr : dotter_files_tracked wMissingA cfgD id =
      .ok { rule_name := "Dotter files exist and are tracked", passed := false,
            issues := [{ severity := Severity.Error, message := "File missing: a",
                         file := some "a", fix_suggestion := none }] } := by decide
  exact (dotter_files_tracked_per_source wMissingA cfgD id ["a"] _ "a"
    (by decide) (by decide) (by decide) hr).2.1 (by decide)

/-- A placeholder result used to instantiate unused binders in witnesses. -/
def anyResult : ValidationResult :=
  { rule_name := "", passed := true, issues := [] }

/-- C8 counterexample: with the repository root `/home/user/dots`, the
Error issue of the configuration-existence rule names the joined path
`/home/user/dots/.dotter/global.toml` (`global_toml.display()`), not the
repository-relative `.dotter/global.toml` the claim asserts. -/
theorem dotter_configs_exist_abs_path_cex :
    (dotter_configs_exist emptyWorld cfgAbs).issues.map Issue.file
      = [some "/home/user/dots/.dotter/global.toml"]
    ∧ (dotter_configs_exist emptyWorld cfgAbs).issues.map Issue.file
      ≠ [some ".dotter/global.toml"] := by decide

/-- C8 (amended): issues of the reference, broken-symlink and validity rules
carry the repository-relative path (a config source key or a git-listed
path); the Error issue of the configuration-existence rule instead carries the
root-joined path of the expected document. -/
theorem issue_file_attribution (w : World) (config : Config)
    (ord : List String → List String) (srcs ts : List String)
    (r2 r3 r4 r5 : ValidationResult) :
    (w.fsExists (pathJoin config.dotfiles_dir ".dotter/global.toml") = false →
      (dotter_configs_exist w config).issues =
        [{ severity := Severity.Error, message := "Dotter global.toml not found",
           file := some (pathJoin config.dotfiles_dir ".dotter/global.toml"),
           fix_suggestion := none }])
    ∧ (collectSources w config.dotfiles_dir = .ok srcs → (ord srcs).Perm srcs →
        dotter_files_tracked w config ord = .ok r2 →
        ∀ i ∈ r2.issues, ∃ src ∈ srcs, i.file = some src)
    ∧ (get_tracked_files w = .ok ts → no_broken_symlinks w config = .ok r3 →
        ∀ i ∈ r3.issues, ∃ f ∈ ts, i.file = some f)
    ∧ (get_tracked_files w = .ok ts → toml_files_valid w config = .ok r4 →
        ∀ i ∈ r4.issues, ∃ f ∈ ts, i.file = some f)
    ∧ (get_tracked_files w = .ok ts → json_files_valid w config = .ok r5 →
        ∀ i ∈ r5.issues, ∃ f ∈ ts, i.file = some f) := by
  refine ⟨?_, ?_, ?_, ?_, ?_⟩
  · intro hex
    simp [dotter_configs_exist, hex]
  · intro hcs hperm hok i hi
    rcases r2 with ⟨n, p, is⟩
    simp only [dotter_files_tracked, hcs, Except.ok.injEq,
      ValidationResult.mk.injEq] at hok
    obtain ⟨hn, hp, his⟩ := hok
    subst his
    dsimp only at hi
    rw [List.mem_flatMap] at hi
    obtain ⟨g, hg, hig⟩ := hi
    exact ⟨g, hperm.mem_iff.mp hg,
      checkSource_file w config.dotfiles_dir g i hig⟩
  · intro hts hok i hi
    rcases r3 with ⟨n, p, is⟩
    simp only [no_broken_symlinks, hts, Except.ok.injEq,
      ValidationResult.mk.injEq] at hok
    obtain ⟨hn, hp, his⟩ := hok
    subst his
    dsimp only at hi
    rw [List.mem_flatMap] at hi
    obtain ⟨g, hg, hig⟩ := hi
    refine ⟨g, hg, ?_⟩
    by_cases hb : is_broken_symlink w (pathJoin config.dotfiles_dir g) = true
    · simp only [hb, if_true] at hig
      simp only [List.mem_singleton] at hig
      subst hig
      rfl
    · simp only [hb, if_false] at hig
      cases hig
  · intro hts hok i hi
    rcases r4 with ⟨n, p, is⟩
    simp only [toml_files_valid, hts, Except.ok.injEq,
      ValidationResult.mk.injEq] at hok
    obtain ⟨hn, hp, his⟩ := hok
    subst his
    dsimp only at hi
    rw [List.mem_flatMap] at hi
    obtain ⟨g, hg, hig⟩ := hi
    exact ⟨g, List.mem_of_mem_filter hg,
      checkTomlFile_file w config.dotfiles_dir g i hig⟩
  · intro hts hok i hi
    rcases r5 with ⟨n, p, is⟩
    simp only [json_files_valid, hts, Except.ok.injEq,
      ValidationResult.mk.injEq] at hok
    obtain ⟨hn, hp, his⟩ := hok
    subst his
    dsimp only at hi
    rw [List.mem_flatMap] at hi
    obtain ⟨g, hg, hig⟩ := hi
    exact ⟨g, List.mem_of_mem_filter hg,
      checkJsonFile_file w config.dotfiles_dir g i hig⟩

/-- C8 witness: the configuration-existence issue on root `d` names the
joined path. -/
theorem issue_file_attribution_witness :
    (dotter_configs_exist emptyWorld cfgD).issues =
      [{ severity := Severity.Error, message := "Dotter global.toml not found",
         file := some (pathJoin cfgD.dotfiles_dir ".dotter/global.toml"),
         fix_suggestion := none }] :=
  (issue_file_attribution emptyWorld cfgD id [] []
    anyResult anyResult anyResult anyResult).1 (by decide)

/-- C7 counterexample: over the unchanged snapshot `wTwoMissing`, two runs of
the full rule sequence that only differ in the (unspecified) `HashSet`
iteration order — identity versus reversal, both permutations of the
collected set `["a", "b"]` — produce different `ValidationResult`s: the two
missing-file issues of the reference rule come out in different orders.  So
"identical results, same order" is not guaranteed by the snapshot alone. -/
theorem run_rules_order_sensitive_cex :
    run_rules wTwoMissing cfgD id ≠ run_rules wTwoMissing cfgD List.reverse
    ∧ (List.reverse ["a", "b"]).Perm ["a", "b"]
    ∧ collectSources wTwoMissing cfgD.dotfiles_dir = .ok ["a", "b"] := by decide

/-- C7 (amended): over one snapshot, two runs of the full rule sequence whose
set-iteration orders are both permutations are either fully identical or both
succeed with pairwise results that agree on rule name, pass flag and issue
count, the issue lists being permutations of each other (they can genuinely
differ in the order of the issues of the reference rule). -/
theorem run_rules_perm_invariant (w : World) (config : Config)
    (ord₁ ord₂ : List String → List String)
    (h₁ : ∀ l : List String, (ord₁ l).Perm l)
    (h₂ : ∀ l : List String, (ord₂ l).Perm l) :
    run_rules w config ord₁ = run_rules w config ord₂
    ∨ ∃ rs₁ rs₂, run_rules w config ord₁ = .ok rs₁
        ∧ run_rules w config ord₂ = .ok rs₂
        ∧ List.Forall₂ (fun a b => a.rule_name = b.rule_name
            ∧ a.passed = b.passed ∧ a.issues.length = b.issues.length
            ∧ a.issues.Perm b.issues) rs₁ rs₂ := by
  rcases hcs : collectSources w config.dotfiles_dir with e | srcs
  · left
    unfold run_rules dotter_files_tracked
    rw [hcs]
  · have hd : ∀ ord : List String → List String,
        dotter_files_tracked w config ord =
          .ok { rule_name := "Dotter files exist and are tracked",
                passed := ((ord srcs).flatMap (checkSource w config.dotfiles_dir)).all
                    (fun i => decide (i.severity = Severity.Warning)),
                issues := (ord srcs).flatMap (checkSource w config.dotfiles_dir) } := by
      intro ord
      unfold dotter_files_tracked
      rw [hcs]
    have hpermi : ((ord₁ srcs).flatMap (checkSource w config.dotfiles_dir)).Perm
        ((ord₂ srcs).flatMap (checkSource w config.dotfiles_dir)) :=
      List.Perm.flatMap_right _ ((h₁ srcs).trans (h₂ srcs).symm)
    have hpass : ((ord₁ srcs).flatMap (checkSource w config.dotfiles_dir)).all
          (fun i => decide (i.severity = Severity.Warning))
        = ((ord₂ srcs).flatMap (checkSource w config.dotfiles_dir)).all
          (fun i => decide (i.severity = Severity.Warning)) := by
      rw [Bool.eq_iff_iff, List.all_eq_true, List.all_eq_true]
      constructor
      · intro h i hi
        exact h i (hpermi.mem_iff.mpr hi)
      · intro h i hi
        exact h i (hpermi.mem_iff.mp hi)
    rcases hnb : no_broken_symlinks w config with e | r3
    · left
      unfold run_rules
      rw [hd ord₁, hd ord₂, hnb]
    · rcases htf : toml_files_valid w config with e | r4
      · left
        unfold run_rules
        rw [hd ord₁, hd ord₂, hnb, htf]
      · rcases hjf : json_files_valid w config with e | r5
        · left
          unfold run_rules
          rw [hd ord₁, hd ord₂, hnb, htf, hjf]
        · right
          refine ⟨[dotter_configs_exist w config,
              { rule_name := "Dotter files exist and are tracked",
                passed := ((ord₁ srcs).flatMap (checkSource w config.dotfiles_dir)).all
                    (fun i => decide (i.severity = Severity.Warning)),
                issues := (ord₁ srcs).flatMap (checkSource w config.dotfiles_dir) },
              r3, r4, r5],
            [dotter_configs_exist w config,
              { rule_name := "Dotter files exist and are tracked",
                passed := ((ord₂ srcs).flatMap (checkSource w config.dotfiles_dir)).all
                    (fun i => decide (i.severity = Severity.Warning)),
                issues := (ord₂ srcs).flatMap (checkSource w config.dotfiles_dir) },
              r3, r4, r5], ?_, ?_, ?_⟩
          · unfold run_rules
            rw [hd ord₁, hnb, htf, hjf]
          · unfold run_rules
            rw [hd ord₂, hnb, htf, hjf]
          · refine List.Forall₂.cons ⟨rfl, rfl, rfl, List.Perm.refl _⟩ ?_
            refine List.Forall₂.cons ⟨rfl, hpass, hpermi.length_eq, hpermi⟩ ?_
            refine List.Forall₂.cons ⟨rfl, rfl, rfl, List.Perm.refl _⟩ ?_
            refine List.Forall₂.cons ⟨rfl, rfl, rfl, List.Perm.refl _⟩ ?_
            refine List.Forall₂.cons ⟨rfl, rfl, rfl, List.Perm.refl _⟩ ?_
            exact List.Forall₂.nil

/-- C7 witness: with the identity iteration order on both sides the theorem
specialises to the empty snapshot. -/
theorem run_rules_perm_invariant_witness :
    run_rules emptyWorld cfgD id = run_rules emptyWorld cfgD id
    ∨ ∃ rs₁ rs₂, run_rules emptyWorld cfgD id = .ok rs₁
        ∧ run_rules emptyWorld cfgD id = .ok rs₂
        ∧ List.Forall₂ (fun a b => a.rule_name = b.rule_name
            ∧ a.passed = b.passed ∧ a.issues.length = b.issues.length
            ∧ a.issues.Perm b.issues) rs₁ rs₂ :=
  run_rules_perm_invariant emptyWorld cfgD id id
    (fun l => List.Perm.refl l) (fun l => List.Perm.refl l)
